import Mathlib

/-!
Formal model of the scrape_to_md repository (Python), shallowly embedded in Lean 4.

Python strings are modelled as `List Char` (a Python `str` is a sequence of code
points). Each definition mirrors one function of the source; fallible Python code
(code that can raise) is modelled with `Except PyStr`. External collaborators
(the browser, the network, yt-dlp, trafilatura, docling) are modelled as explicit
inputs describing their observable responses.
-/

namespace ScrapeToMd

/-- A Python string: a sequence of code points. -/
abbrev PyStr := List Char

/-- Coerce a Lean string literal to the Python string model. -/
def pystr (s : String) : PyStr := s.toList

/-! ## Python `str` primitives -/

/-- Index of the first occurrence of `pat` as a contiguous substring of `s`
(`str.find` restricted to found/not-found). `findSub [] s = some 0`, as in Python. -/
def findSub (pat : PyStr) : PyStr → Option Nat
  | [] => if pat.isPrefixOf ([] : PyStr) then some 0 else none
  | c :: rest =>
    if pat.isPrefixOf (c :: rest) then some 0
    else (findSub pat rest).map (· + 1)

/-- Python `pat in s` (substring containment). -/
def hasSub (pat s : PyStr) : Bool := (findSub pat s).isSome

/-- Fuel-driven worker for Python `str.split(pat)` (non-overlapping, scanning
left to right). Fuel `s.length + 1` always suffices for a non-empty `pat`. -/
def pySplitGo (pat : PyStr) : Nat → PyStr → List PyStr
  | 0, s => [s]
  | fuel + 1, s =>
    match findSub pat s with
    | none => [s]
    | some i => s.take i :: pySplitGo pat fuel (s.drop (i + pat.length))

/-- Python `s.split(pat)` for a non-empty separator `pat` (Python raises on an
empty separator; every call site of the source uses a non-empty literal). -/
def pySplit (pat s : PyStr) : List PyStr :=
  if pat = [] then [s] else pySplitGo pat (s.length + 1) s

/-- Python `lst[-1]` for the non-empty lists produced by `pySplit`. -/
def pyLast (parts : List PyStr) : PyStr := parts.getLastD []

/-- Python `lst[0]` for the non-empty lists produced by `pySplit`. -/
def pyFirst (parts : List PyStr) : PyStr := parts.headD []

/-- Python `s.lower()` (ASCII case folding; the source's URLs are ASCII). -/
def pyLower (s : PyStr) : PyStr := s.map Char.toLower

/-- Python `s.endswith(pat)` (suffix test). -/
def pyEndsWith (pat s : PyStr) : Bool := pat.isSuffixOf s

/-! ## `detector.py` — URL classification

`detect_url_type` delegates to the standard library's `urllib.parse.urlparse`.
The relevant part of CPython's `urlsplit`/`urlparse` (3.11) is modelled below:
leading C0-control/space stripping, removal of tab/CR/LF, scheme recognition,
authority extraction with the "Invalid IPv6 URL" check on unmatched square
brackets, fragment/query splitting and `;`-parameter splitting. The checks that
can only fire on a non-ASCII authority or on a bracketed (IPv6) host are not
modelled; the theorems about totality therefore carry an "ASCII, bracket-free"
hypothesis under which the model and CPython agree exactly. -/

/-- CPython `scheme_chars`. -/
def isSchemeChar (c : Char) : Bool :=
  c.isAlpha || c.isDigit || c = '+' || c = '-' || c = '.'

/-- Result of `urllib.parse.urlparse` (the components the source reads). -/
structure UrlParseResult where
  scheme : PyStr
  netloc : PyStr
  path : PyStr
  params : PyStr
  query : PyStr
  fragment : PyStr
  deriving DecidableEq, Repr

/-- CPython `_splitparams`: split `;`-parameters off the last path segment. -/
def splitParams (url : PyStr) : PyStr × PyStr :=
  let seg := pyLast (pySplit (pystr "/") url)
  match findSub (pystr ";") seg with
  | none => (url, [])
  | some _ =>
    let pre := url.take (url.length - seg.length)
    let segPath := seg.takeWhile (fun c => c ≠ ';')
    (pre ++ segPath, (seg.drop (segPath.length + 1)))

/-- Schemes for which `urlparse` splits `;`-parameters (CPython `uses_params`,
with the empty scheme). -/
def usesParams (scheme : PyStr) : Bool :=
  [pystr "", pystr "ftp", pystr "hdl", pystr "prospero", pystr "http",
   pystr "imap", pystr "https", pystr "shttp", pystr "rtsp", pystr "rtspu",
   pystr "sip", pystr "sips", pystr "mms", pystr "sftp", pystr "tel"].contains scheme

/-- `urlsplit`'s input normalization: strip leading C0-control/space characters,
then remove every tab, CR and LF. -/
def urlPreprocess (url0 : PyStr) : PyStr :=
  (url0.dropWhile (fun c => c.toNat ≤ 0x20)).filter
    (fun c => c ≠ '\t' && c ≠ '\r' && c ≠ '\n')

/-- `urlsplit`'s scheme recognition: `(scheme, remainder)`; the scheme must be
non-empty, start with an ASCII letter and use only scheme characters, else it
stays with the remainder. -/
def urlSchemeSplit (url1 : PyStr) : PyStr × PyStr :=
  match findSub (pystr ":") url1 with
  | some i =>
    if 0 < i && (url1.headD ' ').isAlpha && (url1.take i).all isSchemeChar then
      (pyLower (url1.take i), url1.drop (i + 1))
    else ([], url1)
  | none => ([], url1)

/-- `urlsplit`'s fragment and query extraction: `(path, query, fragment)`,
fragment split off first, then query. -/
def urlFragQuery (u : PyStr) : PyStr × PyStr × PyStr :=
  let u4 := u.takeWhile (fun c => c ≠ '#')
  let fragment := u.drop (u4.length + 1)
  let path := u4.takeWhile (fun c => c ≠ '?')
  let query := u4.drop (path.length + 1)
  (path, query, fragment)

/-- CPython `urlsplit` (3.11), modulo the non-ASCII-authority and bracketed-host
validation noted above. Raises (returns `.error`) "Invalid IPv6 URL" when the
authority contains `[` without `]` or vice versa. -/
def pyUrlsplit (url0 : PyStr) : Except PyStr UrlParseResult :=
  let url1 := urlPreprocess url0
  let scheme := (urlSchemeSplit url1).1
  let url2 := (urlSchemeSplit url1).2
  if (pystr "//").isPrefixOf url2 then
    let rest := url2.drop 2
    let netloc := rest.takeWhile (fun c => c ≠ '/' && c ≠ '?' && c ≠ '#')
    let url3 := rest.drop netloc.length
    if (hasSub (pystr "[") netloc && !hasSub (pystr "]") netloc) ||
       (hasSub (pystr "]") netloc && !hasSub (pystr "[") netloc) then
      .error (pystr "Invalid IPv6 URL")
    else
      let pqf := urlFragQuery url3
      .ok ⟨scheme, netloc, pqf.1, [], pqf.2.1, pqf.2.2⟩
  else
    let pqf := urlFragQuery url2
    .ok ⟨scheme, [], pqf.1, [], pqf.2.1, pqf.2.2⟩

/-- CPython `urlparse`: `urlsplit` plus `;`-parameter splitting; the
`ValueError` of `urlsplit` propagates. -/
def pyUrlparse (url : PyStr) : Except PyStr UrlParseResult :=
  match pyUrlsplit url with
  | .error e => .error e
  | .ok r =>
    if usesParams r.scheme && hasSub (pystr ";") r.path then
      .ok { r with path := (splitParams r.path).1, params := (splitParams r.path).2 }
    else
      .ok r

/-- `detector.detect_url_type`: classify a URL as `youtube`, `pdf` or `web`.
Propagates the parser's `ValueError` unchanged, as the source does. -/
def detect_url_type (url : PyStr) : Except PyStr PyStr :=
  match pyUrlparse url with
  | .error e => .error e
  | .ok parsed =>
    let domain := pyLower parsed.netloc
    let path := pyLower parsed.path
    if hasSub (pystr "youtube.com") domain || hasSub (pystr "youtu.be") domain then
      .ok (pystr "youtube")
    else if pyEndsWith (pystr ".pdf") path then
      .ok (pystr "pdf")
    else
      .ok (pystr "web")

/-! ## `youtube.py` — video id extraction and document assembly -/

/-- `youtube.extract_video_id`: `url.split('youtu.be/')[-1].split('?')[0].split('&')[0]`
when the URL contains `youtu.be/`; `url.split('v=')[-1].split('&')[0]` when it
contains `v=`; otherwise raises `ValueError`. -/
def extract_video_id (url : PyStr) : Except PyStr PyStr :=
  if hasSub (pystr "youtu.be/") url then
    .ok (pyFirst (pySplit (pystr "&")
          (pyFirst (pySplit (pystr "?")
            (pyLast (pySplit (pystr "youtu.be/") url))))))
  else if hasSub (pystr "v=") url then
    .ok (pyFirst (pySplit (pystr "&") (pyLast (pySplit (pystr "v=") url))))
  else
    .error (pystr "Could not extract video ID from URL: " ++ url)

/-- Python `s.strip()` (whitespace at both ends). -/
def pyStrip (s : PyStr) : PyStr :=
  (s.dropWhile Char.isWhitespace).reverse.dropWhile Char.isWhitespace |>.reverse

/-- Split on a single separator character (`str.split(c)`); always non-empty. -/
def splitChar (sep : Char) : PyStr → List PyStr
  | [] => [[]]
  | c :: rest =>
    let r := splitChar sep rest
    if c = sep then [] :: r
    else
      match r with
      | h :: t => (c :: h) :: t
      | [] => [[c]]

/-- Observable responses of the external services `scrape_youtube` consults. -/
structure YtEnv where
  /-- `YouTubeTranscriptApi.get_transcript` joined with newlines; `none` when the
  call raised (the yt-dlp subtitle fallback writes nothing into the document). -/
  transcript : Option PyStr
  /-- stdout of the yt-dlp metadata call; `none` when the call raised. -/
  metaStdout : Option PyStr

/-- The metadata fields `scrape_youtube` derives from the yt-dlp stdout:
`lines = result.stdout.strip().split('\n')`, then positional fields with
defaults, falling back to identifier-only metadata when the call raised. -/
def ytMetadata (videoId : PyStr) (env : YtEnv) : PyStr × PyStr × PyStr × PyStr :=
  match env.metaStdout with
  | some out =>
    let lines := splitChar '\n' (pyStrip out)
    (if 0 < lines.length then lines.headD [] else pystr "Unknown",
     (lines.drop 1).headD [],
     (lines.drop 2).headD [],
     (lines.drop 3).headD [])
  | none => (videoId, [], [], [])

/-- The markdown document `scrape_youtube` assembles (the f-string literal). -/
def ytContent (url title videoId duration uploadDate description : PyStr)
    (transcript : Option PyStr) : PyStr :=
  pystr "---\nurl: " ++ url ++
  pystr "\ntitle: " ++ title ++
  pystr "\nsource: YouTube\nvideo_id: " ++ videoId ++
  pystr "\nduration: " ++ duration ++
  pystr "\nupload_date: " ++ uploadDate ++
  pystr "\n---\n\n# " ++ title ++
  pystr "\n\n**URL**: " ++ url ++
  pystr "\n\n## Description\n\n" ++ description ++
  pystr "\n\n## Transcript\n\n" ++
  (match transcript with
   | some t => t
   | none => pystr "*Transcript not available*") ++
  pystr "\n"

/-- `youtube.scrape_youtube` up to the point where the document text is fixed
(file naming is modelled separately): extracts the id (re-raising the
`ValueError` as `RuntimeError`, same message), fetches transcript and metadata
best-effort, and assembles the document. -/
def scrape_youtube_content (url : PyStr) (env : YtEnv) : Except PyStr PyStr :=
  match extract_video_id url with
  | .error e => .error e
  | .ok videoId =>
    let m := ytMetadata videoId env
    .ok (ytContent url m.1 videoId m.2.2.1 m.2.2.2 m.2.1 env.transcript)

/-- Reads the `duration:` value off one header line, when present. -/
def durationLine? (line : PyStr) : Option PyStr :=
  if (pystr "duration: ").isPrefixOf line then
    some (line.drop (pystr "duration: ").length)
  else none

/-- The `duration:` header field of a generated document, read back by scanning
for the first line starting with `duration: `. -/
def durationField (content : PyStr) : Option PyStr :=
  (splitChar '\n' content).findSome? durationLine?

/-! ## Filename sanitization and collision avoidance
(`web.py`, `daemon_client.py`, `pdf.py`, `youtube.py` share this logic) -/

/-- `"_".join(parts)`. -/
def joinUnderscore : List PyStr → PyStr
  | [] => []
  | [p] => p
  | p :: q :: rest => p ++ '_' :: joinUnderscore (q :: rest)

/-- The shared sanitization:
`safe = "".join(c if c.isalnum() else "_" for c in title[:50])` followed by
`"_".join(filter(None, safe.split("_")))`. -/
def sanitizeTitle (title : PyStr) : PyStr :=
  let safe := (title.take 50).map (fun c => if c.isAlphanum then c else '_')
  joinUnderscore ((splitChar '_' safe).filter (· ≠ []))

/-- `web.py` / `daemon_client.py` stem: `safe_title or 'untitled'`. -/
def webStem (title : PyStr) : PyStr :=
  let s := sanitizeTitle title
  if s = [] then pystr "untitled" else s

/-- Python `s.replace(pat, '')` for non-empty `pat`: drop every non-overlapping
occurrence, scanning left to right. -/
def pyReplaceEmpty (pat s : PyStr) : PyStr := (pySplit pat s).flatten

/-- `pdf.py`: `url.split('/')[-1].replace('.pdf', '').replace('.PDF', '')`. -/
def pdfBaseFilename (url : PyStr) : PyStr :=
  pyReplaceEmpty (pystr ".PDF") (pyReplaceEmpty (pystr ".pdf") (pyLast (pySplit (pystr "/") url)))

/-- `pdf.py` stem: sanitized base filename, `'document'` when empty. -/
def pdfStem (url : PyStr) : PyStr :=
  let s := sanitizeTitle (pdfBaseFilename url)
  if s = [] then pystr "document" else s

/-- The `f"{stem}_{counter}.md"` collision candidate tried at `counter = k`. -/
def mdCandidate (stem : PyStr) (k : Nat) : PyStr :=
  stem ++ ('_' :: (Nat.repr k).toList ++ pystr ".md")

/-- The `counter = 1; while exists: try stem_counter.md` loop, fuelled; the
source's loop is unbounded, and any fuel exceeding the number of occupied
candidate names makes the outcomes agree. -/
def uniqueNameGo (existing : List PyStr) (stem : PyStr) : Nat → Nat → Option PyStr
  | _, 0 => none
  | counter, fuel + 1 =>
    if mdCandidate stem counter ∈ existing then
      uniqueNameGo existing stem (counter + 1) fuel
    else some (mdCandidate stem counter)

/-- The shared collision-avoidance routine: `stem.md` if free, else the first
free `stem_k.md` with `k = 1, 2, …`. -/
def uniqueName (existing : List PyStr) (stem : PyStr) (fuel : Nat) : Option PyStr :=
  let base := stem ++ pystr ".md"
  if base ∈ existing then uniqueNameGo existing stem 1 fuel
  else some base

/-- A directory modelled as an association list of (file name, file content),
newest last; `write_text` on a fresh name appends a binding. -/
abbrev Dir := List (PyStr × PyStr)

/-- One `scrape → pick unique name → write_text` step over the directory model. -/
def writeOutput (dir : Dir) (stem content : PyStr) : Option (PyStr × Dir) :=
  match uniqueName (dir.map Prod.fst) stem (dir.length + 1) with
  | some name => some (name, dir ++ [(name, content)])
  | none => none

/-! ## `chrome_service.py` — the Browser Session Manager

The browser is an external resource; its observable state is a connection flag
and a count of browsing contexts. `stop()`/`start()` and the page operations are
modelled by explicit inputs giving their outcomes. -/

/-- The connection's observable probe state: `is_connected()` and `contexts`. -/
structure Browser where
  connected : Bool
  contexts : Nat
  deriving DecidableEq, Repr

/-- The manager's state: `self.browser` (`None` before any successful start). -/
structure ChromeState where
  browser : Option Browser
  deriving DecidableEq, Repr

/-- The probe of `ensure_connected`: reconnect when no connection object exists,
the connection reports itself closed, or it reports zero contexts. -/
def needsReconnect (s : ChromeState) : Bool :=
  match s.browser with
  | none => true
  | some b => !b.connected || decide (b.contexts = 0)

/-- The error text of `ensure_connected` when a reconnect still yields no
browsing context. -/
def noWindowsMsg : PyStr :=
  pystr "No browser windows available. Open a Chrome window and try again."

/-- `ChromeService.ensure_connected`. `restart` is the outcome of the
`stop(); start()` pair (the browser obtained, or the exception `start()`
raised). Returns the state afterwards and whether a reconnect was performed. -/
def ensure_connected (s : ChromeState) (restart : Except PyStr Browser) :
    Except PyStr (ChromeState × Bool) :=
  if needsReconnect s then
    match restart with
    | .error e => .error e
    | .ok b =>
      if b.contexts = 0 then .error noWindowsMsg
      else .ok (⟨some b⟩, true)
  else
    .ok (s, false)

/-- `_ensure_chrome_running`'s fatal message. -/
def chromeStartupMsg : PyStr := pystr "Chrome failed to start within 30 seconds"

/-- The `for _ in range(30): sleep(1); if is_chrome_running(): break / else raise`
loop. `polls i` is the health-check outcome of probe number `i`; the returned
number counts the probes performed (one per second). -/
def waitChromeGo (polls : Nat → Bool) : Nat → Nat → Except PyStr Nat
  | _, 0 => .error chromeStartupMsg
  | i, fuel + 1 => if polls i then .ok (i + 1) else waitChromeGo polls (i + 1) fuel

/-- `ChromeService._ensure_chrome_running`: nothing to do when the debugging
port already answers; otherwise launch Chrome and poll up to 30 times. -/
def ensure_chrome_running (alreadyRunning : Bool) (polls : Nat → Bool) :
    Except PyStr Nat :=
  if alreadyRunning then .ok 0 else waitChromeGo polls 0 30

/-- Outcome of one `connect_over_cdp` attempt. -/
inductive ConnectOutcome where
  | success
  | failure (msg : PyStr)

/-- The source's connection-refused test:
`"ECONNREFUSED" in str(e) or "connect" in str(e).lower()`. -/
def isRefusedError (msg : PyStr) : Bool :=
  hasSub (pystr "ECONNREFUSED") msg || hasSub (pystr "connect") (pyLower msg)

/-- `start()`'s message after the last failed attempt
(`max_retries = 3` in the source). -/
def failAfterMsg (msg : PyStr) : PyStr :=
  pystr "Failed to connect to Chrome after 3 attempts: " ++ msg

/-- Observable trace of `start()`'s connection retry loop: the result (index of
the successful attempt, or the exception), the attempts whose failure triggered
`cleanup_chrome(); _ensure_chrome_running()`, and how many 2-second pauses were
taken between attempts. -/
structure ConnectTrace where
  result : Except PyStr Nat
  relaunches : List Nat
  pauses : Nat
  deriving Repr

/-- The `for attempt in range(max_retries)` loop of `start()`. `outcomes i` is
the result of connection attempt `i`; `relaunch i` is the outcome of the
cleanup-and-relaunch performed after a refused attempt `i` (`_ensure_chrome_running`
can itself raise). `remaining` is the number of loop iterations left. -/
def connectGo (outcomes : Nat → ConnectOutcome) (relaunch : Nat → Except PyStr Unit) :
    Nat → Nat → ConnectTrace
  | _, 0 => ⟨.ok 0, [], 0⟩
  | attempt, remaining + 1 =>
    match outcomes attempt with
    | .success => ⟨.ok attempt, [], 0⟩
    | .failure msg =>
      if isRefusedError msg then
        match relaunch attempt with
        | .error e => ⟨.error e, [attempt], 0⟩
        | .ok _ =>
          if 0 < remaining then
            let t := connectGo outcomes relaunch (attempt + 1) remaining
            ⟨t.result, attempt :: t.relaunches, t.pauses + 1⟩
          else
            ⟨.error (failAfterMsg msg), [attempt], 0⟩
      else
        ⟨.error msg, [], 0⟩

/-- The connection phase of `ChromeService.start()`: at most 3 attempts,
starting at attempt 0. -/
def startConnect (outcomes : Nat → ConnectOutcome)
    (relaunch : Nat → Except PyStr Unit) : ConnectTrace :=
  connectGo outcomes relaunch 0 3

/-! ### `ChromeService.scrape` -/

/-- Observable outcomes of the page operations used inside `scrape`'s `try`
block. `extract` models `trafilatura.extract`, whose falsy result becomes `''`. -/
structure PageOps where
  goto : Except PyStr Unit
  title : Except PyStr PyStr
  query : Except PyStr (Option Unit)
  innerHtml : Except PyStr PyStr
  content : Except PyStr PyStr
  extract : PyStr → Except PyStr (Option PyStr)

/-- The Scrape Result record `{url, title, markdown, error}`. -/
structure ScrapeResult where
  url : PyStr
  title : PyStr
  markdown : PyStr
  error : Option PyStr
  deriving DecidableEq, Repr

/-- The body of `scrape`'s `try` block: navigate, read the title, pick the
markup (selector hit wrapped in a document shell, else full page), extract. -/
def scrapeBody (ops : PageOps) (selector : Option PyStr) :
    Except PyStr (PyStr × PyStr) := do
  let _ ← ops.goto
  let title ← ops.title
  let html ←
    match selector with
    | some _ => do
      match ← ops.query with
      | some _ => do
        let inner ← ops.innerHtml
        pure (pystr "<html><body><article>" ++ inner ++ pystr "</article></body></html>")
      | none => ops.content
    | none => ops.content
  let md ← ops.extract html
  pure (title, md.getD [])

/-- The inputs `scrape` consumes: the reconnect outcome for `ensure_connected`,
the outcome of `context.new_page()`, and the page operations. `page.close()` in
the `finally` block is modelled as always succeeding. -/
structure ScrapeEnv where
  restart : Except PyStr Browser
  newPage : Except PyStr Unit
  ops : PageOps

/-- `ChromeService.scrape`. The Boolean records whether the opened page was
closed (`False` when no page was ever opened). `ensure_connected` and
`context.new_page()` run before the `try` block, so their exceptions propagate. -/
def scrape (s : ChromeState) (env : ScrapeEnv) (url : PyStr)
    (selector : Option PyStr) : Except PyStr ScrapeResult × Bool :=
  match ensure_connected s env.restart with
  | .error e => (.error e, false)
  | .ok _ =>
    match env.newPage with
    | .error e => (.error e, false)
    | .ok _ =>
      match scrapeBody env.ops selector with
      | .ok (t, m) => (.ok ⟨url, t, m, none⟩, true)
      | .error e => (.ok ⟨url, [], [], some e⟩, true)

/-! ## `pdf.py` — the Document Converter -/

/-- Outcomes of the external steps of `scrape_pdf`: `urlretrieve` and the
docling conversion. -/
structure PdfEnv where
  download : Except PyStr Unit
  convert : Except PyStr PyStr

/-- What `scrape_pdf` did to the scratch file, plus its result: how many times
`tmp_path.unlink(missing_ok=True)` was invoked, and whether the scratch file
still exists afterwards (it is created before the first branch). -/
structure PdfOutcome where
  result : Except PyStr PyStr
  unlinkCalls : Nat
  tmpExists : Bool
  deriving Repr

/-- The document `scrape_pdf` assembles on success. -/
def pdfContent (url markdown : PyStr) : PyStr :=
  pystr "---\nurl: " ++ url ++ pystr "\nsource: PDF\n---\n\n" ++ markdown ++ pystr "\n"

/-- `pdf.scrape_pdf` up to the document text: the download `try/except` has no
cleanup; the conversion `try/except/finally` unlinks in the `except` arm and
again in `finally`. -/
def scrape_pdf (url : PyStr) (env : PdfEnv) : PdfOutcome :=
  match env.download with
  | .error e => ⟨.error (pystr "Failed to download PDF: " ++ e), 0, true⟩
  | .ok _ =>
    match env.convert with
    | .error e => ⟨.error (pystr "Failed to convert PDF: " ++ e), 2, false⟩
    | .ok md => ⟨.ok (pdfContent url md), 1, false⟩

/-! ## Metadata headers (`web.py`, `daemon_client.py`) -/

/-- The document `web.scrape_web` writes (its f-string literal, verbatim
interpolation of `url` and `title`). -/
def webContent (url title extracted : PyStr) : PyStr :=
  pystr "---\nurl: " ++ url ++ pystr "\ntitle: " ++ title ++
  pystr "\nsource: web\n---\n\n# " ++ title ++ pystr "\n\n" ++ extracted ++ pystr "\n"

/-- The document `daemon_client.scrape_via_daemon` writes. -/
def daemonContent (url title markdown : PyStr) : PyStr :=
  pystr "---\nurl: " ++ url ++ pystr "\ntitle: " ++ title ++
  pystr "\nsource: web\n---\n\n" ++ markdown ++ pystr "\n"

/-- Modelled from the spec: the repository serializes metadata headers but ships
no parser for them, and the spec's round-trip property speaks of "serializing
then parsing the header". This parser reads the block between the first two
`---` lines and returns the text after `title: ` on the first line carrying
that key. -/
def parseTitleField (content : PyStr) : Option PyStr :=
  match splitChar '\n' content with
  | first :: rest =>
    if first = pystr "---" then
      (rest.takeWhile (· ≠ pystr "---")).findSome? fun line =>
        if (pystr "title: ").isPrefixOf line then
          some (line.drop (pystr "title: ").length)
        else none
    else none
  | [] => none

/-! # Supporting lemmas -/

theorem hasSub_singleton_iff (c : Char) (s : PyStr) :
    hasSub [c] s = true ↔ c ∈ s := by
  induction s with
  | nil => simp [hasSub, findSub, List.isPrefixOf]
  | cons x rest ih =>
    by_cases hcx : c = x
    · subst hcx
      simp [hasSub, findSub, List.isPrefixOf]
    · have hpre : [c].isPrefixOf (x :: rest) = false := by
        simp [List.isPrefixOf, hcx]
      simp only [hasSub, findSub, hpre] at ih ⊢
      simp only [Bool.false_eq_true, if_false, Option.isSome_map']
      simp [List.mem_cons, hcx]
      exact ih

/-! ## `extract_video_id` (claim C7) -/

/-- Claim C7: video identifier extraction recognizes exactly the two URL
shapes. The short-link form `https://youtu.be/ID?t=42` yields `ID`; the
canonical form `https://www.youtube.com/watch?v=ID&t=42s` yields `ID`; and any
URL containing neither the `youtu.be/` marker nor a `v=` substring raises the
identifier-extraction `ValueError`. -/
theorem extract_video_id_spec :
    extract_video_id (pystr "https://youtu.be/ID?t=42") = .ok (pystr "ID") ∧
    extract_video_id (pystr "https://www.youtube.com/watch?v=ID&t=42s") = .ok (pystr "ID") ∧
    ∀ url : PyStr, hasSub (pystr "youtu.be/") url = false →
      hasSub (pystr "v=") url = false →
      extract_video_id url = .error (pystr "Could not extract video ID from URL: " ++ url) := by
  refine ⟨by rfl, by rfl, ?_⟩
  intro url h1 h2
  simp [extract_video_id, h1, h2]

/-- Witness for claim C7: the rejection branch fires on a plain non-video URL. -/
theorem extract_video_id_spec_witness :
    extract_video_id (pystr "https://example.com/page") =
      .error (pystr "Could not extract video ID from URL: " ++ pystr "https://example.com/page") :=
  extract_video_id_spec.2.2 (pystr "https://example.com/page") (by decide) (by decide)

/-! ## Metadata-header round-trip (claim C4) -/

/-- Claim C4 (code bug): the writers interpolate the title into the header
verbatim, so a title with an embedded newline does not survive a
serialize-then-parse round trip. For the title `"Line 1\nLine 2"`, the header
written by the web writer parses back to `"Line 1"`, not the original title.
The repository's own tests (`test_frontmatter.py`) assert that proper YAML
escaping is "what the code now does", which the code contradicts. -/
theorem frontmatter_newline_roundtrip_fails :
    parseTitleField
        (webContent (pystr "https://e.com") (pystr "Line 1\nLine 2") (pystr "body")) =
      some (pystr "Line 1") ∧
    pystr "Line 1" ≠ pystr "Line 1\nLine 2" := by
  exact ⟨by decide, by decide⟩

/-! ## `scrape_pdf` scratch-file handling (claim C5) -/

/-- Claim C5 (code bug): evaluation of `scrape_pdf` on each branch. On download
failure the operation aborts with the download-specific error but the scratch
file is never unlinked (zero `unlink` calls, file still exists) — contradicting
the claim that the scratch file is removed on every branch. On conversion
failure the file is removed (the `except` arm unlinks and the `finally` arm
calls `unlink(missing_ok=True)` again, a no-op); on success the `finally` arm
removes it once. -/
theorem scrape_pdf_branch_evaluation :
    scrape_pdf (pystr "https://example.com/a.pdf")
        ⟨.error (pystr "timeout"), .ok (pystr "md")⟩ =
      ⟨.error (pystr "Failed to download PDF: timeout"), 0, true⟩ ∧
    scrape_pdf (pystr "https://example.com/a.pdf")
        ⟨.ok (), .error (pystr "bad pdf")⟩ =
      ⟨.error (pystr "Failed to convert PDF: bad pdf"), 2, false⟩ ∧
    scrape_pdf (pystr "https://example.com/a.pdf") ⟨.ok (), .ok (pystr "md")⟩ =
      ⟨.ok (pdfContent (pystr "https://example.com/a.pdf") (pystr "md")), 1, false⟩ := by
  exact ⟨rfl, rfl, rfl⟩

/-! ## `ensure_connected` (claim C1) -/

/-- Claim C1: `ensure_connected` reconnects (a full `stop()` then `start()`)
exactly when no connection object exists, the connection reports itself closed,
or it reports zero browsing contexts; whenever it returns normally the
connection has at least one browsing context; and when a reconnect still yields
zero contexts it raises the descriptive "no browser windows" error instead of
returning. -/
theorem ensure_connected_spec (s : ChromeState) (restart : Except PyStr Browser) :
    (needsReconnect s = true ↔
      s.browser = none ∨
        ∃ b, s.browser = some b ∧ (b.connected = false ∨ b.contexts = 0)) ∧
    (∀ s' didReconnect,
      ensure_connected s restart = .ok (s', didReconnect) →
        didReconnect = needsReconnect s ∧
        ∃ b, s'.browser = some b ∧ 1 ≤ b.contexts) ∧
    (∀ b, needsReconnect s = true → restart = .ok b → b.contexts = 0 →
      ensure_connected s restart = .error noWindowsMsg) := by
  obtain ⟨ob⟩ := s
  refine ⟨?_, ?_, ?_⟩
  · cases ob with
    | none => simp [needsReconnect]
    | some b =>
      simp [needsReconnect, Bool.or_eq_true, Bool.not_eq_true']
  · intro s' didReconnect h
    by_cases hn : needsReconnect ⟨ob⟩ = true
    · simp only [ensure_connected, if_pos hn] at h
      cases restart with
      | error e => cases h
      | ok b =>
        by_cases hz : b.contexts = 0
        · simp [hz] at h
        · simp only [hz, if_false, if_neg hz] at h
          cases h
          exact ⟨hn.symm, b, rfl, Nat.one_le_iff_ne_zero.mpr hz⟩
    · simp only [ensure_connected, if_neg hn] at h
      cases h
      refine ⟨(Bool.not_eq_true _).mp hn |>.symm, ?_⟩
      cases ob with
      | none => simp [needsReconnect] at hn
      | some b =>
        simp only [needsReconnect, Bool.or_eq_true, Bool.not_eq_true',
          decide_eq_true_eq] at hn
        push_neg at hn
        exact ⟨b, rfl, Nat.one_le_iff_ne_zero.mpr hn.2⟩
  · intro b hn hr hz
    simp [ensure_connected, hn, hr, hz]

/-- Witness for claim C1: with no connection object and a restart that produces
a browser with zero contexts, `ensure_connected` raises the "no browser
windows" error. -/
theorem ensure_connected_spec_witness :
    ensure_connected ⟨none⟩ (.ok ⟨true, 0⟩) = .error noWindowsMsg :=
  (ensure_connected_spec ⟨none⟩ (.ok ⟨true, 0⟩)).2.2 ⟨true, 0⟩ (by decide) rfl rfl

/-! ## `start()` retry structure (claim C2) -/

theorem waitChromeGo_ok_le (polls : Nat → Bool) :
    ∀ fuel i n, waitChromeGo polls i fuel = .ok n → n ≤ i + fuel := by
  intro fuel
  induction fuel with
  | zero => intro i n h; simp [waitChromeGo] at h
  | succ f ih =>
    intro i n h
    rw [waitChromeGo] at h
    by_cases hp : polls i = true
    · rw [if_pos hp] at h
      cases h
      omega
    · rw [if_neg hp] at h
      have := ih (i + 1) n h
      omega

theorem waitChromeGo_all_false (polls : Nat → Bool) :
    ∀ fuel i, (∀ j, i ≤ j → j < i + fuel → polls j = false) →
      waitChromeGo polls i fuel = .error chromeStartupMsg := by
  intro fuel
  induction fuel with
  | zero => intro i _; rfl
  | succ f ih =>
    intro i h
    rw [waitChromeGo, if_neg]
    · exact ih (i + 1) fun j h1 h2 => h j (by omega) (by omega)
    · rw [h i (by omega) (by omega)]
      simp

theorem connectGo_ok_lt (outcomes : Nat → ConnectOutcome)
    (relaunch : Nat → Except PyStr Unit) :
    ∀ remaining attempt i, 0 < remaining →
      (connectGo outcomes relaunch attempt remaining).result = .ok i →
      attempt ≤ i ∧ i < attempt + remaining := by
  intro remaining
  induction remaining with
  | zero => omega
  | succ rem ih =>
    intro attempt i _ h
    cases ho : outcomes attempt with
    | success =>
      simp [connectGo, ho] at h
      omega
    | failure msg =>
      by_cases hr : isRefusedError msg = true
      · cases hrel : relaunch attempt with
        | error e => simp [connectGo, ho, hr, hrel] at h
        | ok u =>
          by_cases hrem : 0 < rem
          · simp only [connectGo, ho, hr, if_true, hrel, if_pos hrem] at h
            have := ih (attempt + 1) i hrem h
            omega
          · simp [connectGo, ho, hr, hrel, hrem] at h
      · simp [connectGo, ho, hr] at h

/-- Claim C2: in `start()`, the health check is polled at most 30 times and the
startup fails fatally when the process never becomes reachable; the protocol
connection is attempted at most 3 times; a connection-refused class of error
causes cleanup-and-relaunch before the next attempt (with a 2-second pause
counted between attempts, and the fatal "after 3 attempts" error when the last
attempt also fails); any other error class aborts immediately, with no retry,
no relaunch and no pause. The per-second pacing itself (`sleep(1)`/`sleep(2)`)
is real time and is represented only by the poll and pause counts. -/
theorem start_retry_spec :
    (∀ (running : Bool) (polls : Nat → Bool) n,
      ensure_chrome_running running polls = .ok n → n ≤ 30) ∧
    (∀ polls : Nat → Bool, (∀ j, j < 30 → polls j = false) →
      ensure_chrome_running false polls = .error chromeStartupMsg) ∧
    (∀ (outcomes : Nat → ConnectOutcome) (relaunch : Nat → Except PyStr Unit) i,
      (startConnect outcomes relaunch).result = .ok i → i < 3) ∧
    (∀ (outcomes : Nat → ConnectOutcome) (relaunch : Nat → Except PyStr Unit)
        (i : Nat) (msg : PyStr), i < 3 →
      (∀ j, j < i → ∃ m, outcomes j = .failure m ∧ isRefusedError m = true ∧
        relaunch j = .ok ()) →
      outcomes i = .failure msg → isRefusedError msg = false →
      startConnect outcomes relaunch = ⟨.error msg, List.range i, i⟩) ∧
    (∀ (outcomes : Nat → ConnectOutcome) (relaunch : Nat → Except PyStr Unit)
        (i : Nat), i < 3 →
      (∀ j, j < i → ∃ m, outcomes j = .failure m ∧ isRefusedError m = true ∧
        relaunch j = .ok ()) →
      outcomes i = .success →
      startConnect outcomes relaunch = ⟨.ok i, List.range i, i⟩) ∧
    (∀ (outcomes : Nat → ConnectOutcome) (relaunch : Nat → Except PyStr Unit)
        (msg : PyStr),
      (∀ j, j < 2 → ∃ m, outcomes j = .failure m ∧ isRefusedError m = true ∧
        relaunch j = .ok ()) →
      outcomes 2 = .failure msg → isRefusedError msg = true → relaunch 2 = .ok () →
      startConnect outcomes relaunch = ⟨.error (failAfterMsg msg), [0, 1, 2], 2⟩) := by
  refine ⟨?_, ?_, ?_, ?_, ?_, ?_⟩
  · intro running polls n h
    by_cases hr : running = true
    · rw [ensure_chrome_running, if_pos hr] at h
      cases h
      omega
    · rw [ensure_chrome_running, if_neg hr] at h
      simpa using waitChromeGo_ok_le polls 30 0 n h
  · intro polls h
    rw [ensure_chrome_running, if_neg (by simp)]
    exact waitChromeGo_all_false polls 30 0 fun j _ hj => h j (by omega)
  · intro outcomes relaunch i h
    have := connectGo_ok_lt outcomes relaunch 3 0 i (by omega) h
    omega
  · intro outcomes relaunch i msg hi hprior ho hmsg
    interval_cases i
    · simp [startConnect, connectGo, ho, hmsg]
    · obtain ⟨m0, h0, hr0, hl0⟩ := hprior 0 (by omega)
      simp [startConnect, connectGo, h0, hr0, hl0, ho, hmsg, List.range_succ]
    · obtain ⟨m0, h0, hr0, hl0⟩ := hprior 0 (by omega)
      obtain ⟨m1, h1, hr1, hl1⟩ := hprior 1 (by omega)
      simp [startConnect, connectGo, h0, hr0, hl0, h1, hr1, hl1, ho, hmsg,
        List.range_succ]
  · intro outcomes relaunch i hi hprior ho
    interval_cases i
    · simp [startConnect, connectGo, ho]
    · obtain ⟨m0, h0, hr0, hl0⟩ := hprior 0 (by omega)
      simp [startConnect, connectGo, h0, hr0, hl0, ho, List.range_succ]
    · obtain ⟨m0, h0, hr0, hl0⟩ := hprior 0 (by omega)
      obtain ⟨m1, h1, hr1, hl1⟩ := hprior 1 (by omega)
      simp [startConnect, connectGo, h0, hr0, hl0, h1, hr1, hl1, ho,
        List.range_succ]
  · intro outcomes relaunch msg hprior ho hmsg hrel
    obtain ⟨m0, h0, hr0, hl0⟩ := hprior 0 (by omega)
    obtain ⟨m1, h1, hr1, hl1⟩ := hprior 1 (by omega)
    simp [startConnect, connectGo, h0, hr0, hl0, h1, hr1, hl1, ho, hmsg, hrel]

/-- Witness for claim C2: a run whose first connection attempt fails with a
non-refused error aborts immediately with that error, after zero relaunches
and zero pauses. -/
theorem start_retry_spec_witness :
    startConnect (fun _ => .failure (pystr "Browser closed"))
        (fun _ => .ok ()) =
      ⟨.error (pystr "Browser closed"), List.range 0, 0⟩ :=
  start_retry_spec.2.2.2.1 (fun _ => .failure (pystr "Browser closed"))
    (fun _ => .ok ()) 0 (pystr "Browser closed") (by omega)
    (fun j hj => absurd hj (by omega)) rfl (by decide)

/-! ## `scrape` error handling (claim C3) -/

/-- Claim C3 counterexample: `scrape` does propagate an exception to its
caller. `ensure_connected` runs before the `try` block; with no connection
object and a restart producing a browser with zero contexts, `scrape` raises
the "no browser windows" error instead of returning a Scrape Result, and no
page is ever opened or closed. -/
theorem scrape_propagates_counterexample :
    scrape ⟨none⟩
        ⟨.ok ⟨true, 0⟩, .ok (),
         ⟨.ok (), .ok [], .ok none, .ok [], .ok [], fun _ => .ok none⟩⟩
        (pystr "https://example.com") none =
      (.error noWindowsMsg, false) := rfl

/-- Claim C3 amended: once the connection phase succeeds (`ensure_connected`
and `context.new_page()` return normally), `scrape` never propagates: any
exception of the navigation/extraction body is caught and turned into a
well-formed Scrape Result with `error` set to the exception's message and
`title`/`markdown` empty, a successful body yields a result with no error, and
the opened page is closed on both paths. Exceptions of the connection phase
itself (before the `try` block) do propagate, with no page to close. -/
theorem scrape_amended_spec (s : ChromeState) (env : ScrapeEnv) (url : PyStr)
    (sel : Option PyStr) :
    (∀ s' dr, ensure_connected s env.restart = .ok (s', dr) →
      env.newPage = .ok () →
      ((∃ t m, scrapeBody env.ops sel = .ok (t, m) ∧
          scrape s env url sel = (.ok ⟨url, t, m, none⟩, true)) ∨
       (∃ e, scrapeBody env.ops sel = .error e ∧
          scrape s env url sel = (.ok ⟨url, [], [], some e⟩, true)))) ∧
    (∀ r closed, scrape s env url sel = (.ok r, closed) →
      closed = true ∧ r.url = url ∧
      (r.error = none ∨ (r.title = [] ∧ r.markdown = []))) ∧
    (∀ e, ensure_connected s env.restart = .error e →
      scrape s env url sel = (.error e, false)) := by
  refine ⟨?_, ?_, ?_⟩
  · intro s' dr hconn hpage
    cases hb : scrapeBody env.ops sel with
    | ok tm =>
      obtain ⟨t, m⟩ := tm
      refine .inl ⟨t, m, rfl, ?_⟩
      simp only [scrape, hconn, hpage, hb]
    | error e =>
      refine .inr ⟨e, rfl, ?_⟩
      simp only [scrape, hconn, hpage, hb]
  · intro r closed h
    simp only [scrape] at h
    cases hconn : ensure_connected s env.restart with
    | error e => simp [hconn] at h
    | ok p =>
      simp only [hconn] at h
      cases hpage : env.newPage with
      | error e => simp [hpage] at h
      | ok u =>
        simp only [hpage] at h
        cases hb : scrapeBody env.ops sel with
        | ok tm =>
          obtain ⟨t, m⟩ := tm
          simp only [hb, Prod.mk.injEq, Except.ok.injEq] at h
          obtain ⟨hr, hc⟩ := h
          subst hr
          subst hc
          exact ⟨rfl, rfl, .inl rfl⟩
        | error e =>
          simp only [hb, Prod.mk.injEq, Except.ok.injEq] at h
          obtain ⟨hr, hc⟩ := h
          subst hr
          subst hc
          exact ⟨rfl, rfl, .inr ⟨rfl, rfl⟩⟩
  · intro e he
    simp only [scrape, he]

/-- Witness for claim C3 (amended): with a healthy connection and a navigation
timeout, `scrape` returns the caught-error Scrape Result and closes the page. -/
theorem scrape_amended_spec_witness :
    (∃ t m,
      scrapeBody
          ⟨.error (pystr "Timeout 30000ms exceeded"), .ok [], .ok none, .ok [],
           .ok [], fun _ => .ok none⟩ none = .ok (t, m) ∧
      scrape ⟨some ⟨true, 1⟩⟩
          ⟨.ok ⟨true, 1⟩,
           .ok (),
           ⟨.error (pystr "Timeout 30000ms exceeded"), .ok [], .ok none, .ok [],
            .ok [], fun _ => .ok none⟩⟩
          (pystr "https://example.com") none =
        (.ok ⟨pystr "https://example.com", t, m, none⟩, true)) ∨
    (∃ e,
      scrapeBody
          ⟨.error (pystr "Timeout 30000ms exceeded"), .ok [], .ok none, .ok [],
           .ok [], fun _ => .ok none⟩ none = .error e ∧
      scrape ⟨some ⟨true, 1⟩⟩
          ⟨.ok ⟨true, 1⟩,
           .ok (),
           ⟨.error (pystr "Timeout 30000ms exceeded"), .ok [], .ok none, .ok [],
            .ok [], fun _ => .ok none⟩⟩
          (pystr "https://example.com") none =
        (.ok ⟨pystr "https://example.com", [], [], some e⟩, true)) :=
  (scrape_amended_spec ⟨some ⟨true, 1⟩⟩
      ⟨.ok ⟨true, 1⟩, .ok (),
       ⟨.error (pystr "Timeout 30000ms exceeded"), .ok [], .ok none, .ok [],
        .ok [], fun _ => .ok none⟩⟩
      (pystr "https://example.com") none).1
    ⟨some ⟨true, 1⟩⟩ false rfl rfl

/-! ## URL classification (claim C6) -/

theorem urlPreprocess_sublist (url : PyStr) : List.Sublist (urlPreprocess url) url :=
  (List.filter_sublist _).trans (List.dropWhile_sublist _)

theorem urlSchemeSplit_snd_sublist (u : PyStr) : List.Sublist (urlSchemeSplit u).2 u := by
  rw [urlSchemeSplit]
  cases findSub (pystr ":") u with
  | none => exact List.Sublist.refl u
  | some i =>
    dsimp only
    split
    · exact List.drop_sublist _ _
    · exact List.Sublist.refl u

theorem bracketCond_false {url netloc : PyStr} (hn : ∀ c ∈ netloc, c ∈ url)
    (h : ∀ c ∈ url, c ≠ '[' ∧ c ≠ ']') :
    ((hasSub (pystr "[") netloc && !hasSub (pystr "]") netloc) ||
     (hasSub (pystr "]") netloc && !hasSub (pystr "[") netloc)) = false := by
  have h1 : hasSub (pystr "[") netloc = false := by
    rw [show (pystr "[") = ['['] from rfl]
    exact Bool.eq_false_iff.mpr fun ht =>
      (h _ (hn _ ((hasSub_singleton_iff _ _).mp ht))).1 rfl
  have h2 : hasSub (pystr "]") netloc = false := by
    rw [show (pystr "]") = [']'] from rfl]
    exact Bool.eq_false_iff.mpr fun ht =>
      (h _ (hn _ ((hasSub_singleton_iff _ _).mp ht))).2 rfl
  rw [h1, h2]
  rfl

theorem pyUrlsplit_ok_of_no_brackets (url : PyStr)
    (h : ∀ c ∈ url, c ≠ '[' ∧ c ≠ ']') : ∃ r, pyUrlsplit url = .ok r := by
  simp only [pyUrlsplit]
  by_cases hp :
      (pystr "//").isPrefixOf (urlSchemeSplit (urlPreprocess url)).2 = true
  · rw [if_pos hp]
    have hsub : ∀ c ∈ ((urlSchemeSplit (urlPreprocess url)).2.drop 2).takeWhile
        (fun c => c ≠ '/' && c ≠ '?' && c ≠ '#'), c ∈ url := by
      intro c hc
      have : List.Sublist
          (((urlSchemeSplit (urlPreprocess url)).2.drop 2).takeWhile
            (fun c => c ≠ '/' && c ≠ '?' && c ≠ '#')) url :=
        ((List.takeWhile_sublist _).trans (List.drop_sublist _ _)).trans
          ((urlSchemeSplit_snd_sublist _).trans (urlPreprocess_sublist url))
      exact this.subset hc
    rw [bracketCond_false hsub h]
    simp
  · rw [if_neg hp]
    exact ⟨_, rfl⟩

theorem pyUrlparse_ok_of_no_brackets (url : PyStr)
    (h : ∀ c ∈ url, c ≠ '[' ∧ c ≠ ']') : ∃ r, pyUrlparse url = .ok r := by
  obtain ⟨r0, hr0⟩ := pyUrlsplit_ok_of_no_brackets url h
  simp only [pyUrlparse, hr0]
  by_cases hc : (usesParams r0.scheme && hasSub (pystr ";") r0.path) = true
  · rw [if_pos hc]
    exact ⟨_, rfl⟩
  · rw [if_neg hc]
    exact ⟨_, rfl⟩

theorem detect_url_type_of_parse {url : PyStr} {r : UrlParseResult}
    (hr : pyUrlparse url = .ok r) :
    detect_url_type url = .ok
      (if hasSub (pystr "youtube.com") (pyLower r.netloc) ||
          hasSub (pystr "youtu.be") (pyLower r.netloc) then pystr "youtube"
       else if pyEndsWith (pystr ".pdf") (pyLower r.path) then pystr "pdf"
       else pystr "web") := by
  simp only [detect_url_type, hr]
  by_cases hy : (hasSub (pystr "youtube.com") (pyLower r.netloc) ||
      hasSub (pystr "youtu.be") (pyLower r.netloc)) = true
  · rw [if_pos hy, if_pos hy]
  · rw [if_neg hy, if_neg hy]
    by_cases hpdf : pyEndsWith (pystr ".pdf") (pyLower r.path) = true
    · rw [if_pos hpdf, if_pos hpdf]
    · rw [if_neg hpdf, if_neg hpdf]

/-- Claim C6 counterexample: the classifier is not total. On the string
`http://[abc` the underlying URL parser raises `ValueError("Invalid IPv6 URL")`
(an unmatched `[` in the authority), which `detect_url_type` propagates, so
there is a URL string on which the classifier has a failure mode. -/
theorem detect_url_type_not_total :
    detect_url_type (pystr "http://[abc") = .error (pystr "Invalid IPv6 URL") := rfl

/-- Claim C6 amended: for every ASCII URL containing no square bracket, the
classifier totally returns exactly one of the three classes, evaluated in
order — `youtube` when the parsed host contains a video-platform marker, else
`pdf` when the parsed path ends with `.pdf` case-insensitively, else `web` —
and a marker confined to the query string (or anywhere outside host/path)
never produces a non-`web` class. On URLs with an unmatched bracket in the
authority the parser's `ValueError` propagates (see the counterexample), so
totality holds only on the bracket-free fragment. The three end-to-end
scenarios of the spec hold. -/
theorem detect_url_type_amended_spec :
    (∀ url : PyStr, (∀ c ∈ url, c ≠ '[' ∧ c ≠ ']' ∧ c.toNat < 128) →
      ∃ r, pyUrlparse url = .ok r ∧
        detect_url_type url = .ok
          (if hasSub (pystr "youtube.com") (pyLower r.netloc) ||
              hasSub (pystr "youtu.be") (pyLower r.netloc) then pystr "youtube"
           else if pyEndsWith (pystr ".pdf") (pyLower r.path) then pystr "pdf"
           else pystr "web")) ∧
    (∀ (url : PyStr) (r : UrlParseResult), pyUrlparse url = .ok r →
      hasSub (pystr "youtube.com") (pyLower r.netloc) = false →
      hasSub (pystr "youtu.be") (pyLower r.netloc) = false →
      pyEndsWith (pystr ".pdf") (pyLower r.path) = false →
      detect_url_type url = .ok (pystr "web")) ∧
    detect_url_type (pystr "https://youtube.com/watch?v=abc123") = .ok (pystr "youtube") ∧
    detect_url_type (pystr "https://example.com/doc.PDF") = .ok (pystr "pdf") ∧
    detect_url_type (pystr "https://example.com?file=doc.pdf") = .ok (pystr "web") := by
  refine ⟨?_, ?_, by rfl, by rfl, by rfl⟩
  · intro url h
    obtain ⟨r, hr⟩ :=
      pyUrlparse_ok_of_no_brackets url fun c hc => ⟨(h c hc).1, (h c hc).2.1⟩
    exact ⟨r, hr, detect_url_type_of_parse hr⟩
  · intro url r hr h1 h2 h3
    rw [detect_url_type_of_parse hr, h1, h2, h3]
    rfl

/-- Witness for claim C6 (amended): the totality-and-rules conjunct applied to
a concrete bracket-free ASCII URL. -/
theorem detect_url_type_amended_spec_witness :
    ∃ r, pyUrlparse (pystr "https://example.com/page.html") = .ok r ∧
      detect_url_type (pystr "https://example.com/page.html") = .ok
        (if hasSub (pystr "youtube.com") (pyLower r.netloc) ||
            hasSub (pystr "youtu.be") (pyLower r.netloc) then pystr "youtube"
         else if pyEndsWith (pystr ".pdf") (pyLower r.path) then pystr "pdf"
         else pystr "web") :=
  detect_url_type_amended_spec.1 (pystr "https://example.com/page.html") (by decide)

/-! ## Lemmas about `splitChar` and `joinUnderscore` -/

theorem splitChar_ne_nil (sep : Char) (s : PyStr) : splitChar sep s ≠ [] := by
  cases s with
  | nil => simp [splitChar]
  | cons c rest =>
    rw [splitChar]
    by_cases hc : c = sep
    · simp [hc]
    · rw [if_neg hc]
      cases splitChar sep rest <;> simp

theorem mem_splitChar (sep : Char) :
    ∀ (s : PyStr), ∀ p ∈ splitChar sep s, ∀ c ∈ p, c ∈ s ∧ c ≠ sep := by
  intro s
  induction s with
  | nil =>
    intro p hp c hc
    simp [splitChar] at hp
    subst hp
    cases hc
  | cons x rest ih =>
    intro p hp c hc
    rw [splitChar] at hp
    by_cases hx : x = sep
    · rw [if_pos hx] at hp
      rcases List.mem_cons.mp hp with h | h
      · subst h; cases hc
      · obtain ⟨hm, hne⟩ := ih p h c hc
        exact ⟨List.mem_cons_of_mem _ hm, hne⟩
    · rw [if_neg hx] at hp
      cases hr : splitChar sep rest with
      | nil => exact absurd hr (splitChar_ne_nil sep rest)
      | cons h0 t0 =>
        rw [hr] at hp
        rcases List.mem_cons.mp hp with h | h
        · subst h
          rcases List.mem_cons.mp hc with h | h
          · subst h
            exact ⟨List.mem_cons_self _ _, hx⟩
          · obtain ⟨hm, hne⟩ := ih h0 (hr ▸ List.mem_cons_self h0 t0) c h
            exact ⟨List.mem_cons_of_mem _ hm, hne⟩
        · obtain ⟨hm, hne⟩ := ih p (hr ▸ List.mem_cons_of_mem h0 h) c hc
          exact ⟨List.mem_cons_of_mem _ hm, hne⟩

theorem splitChar_sep_cons (sep : Char) (b : PyStr) :
    splitChar sep (sep :: b) = [] :: splitChar sep b := by
  rw [splitChar, if_pos rfl]

theorem splitChar_append_no_sep (sep : Char) (a b : PyStr) (h : sep ∉ a) :
    splitChar sep (a ++ b) =
      (a ++ (splitChar sep b).headD []) :: (splitChar sep b).tail := by
  induction a with
  | nil =>
    simp only [List.nil_append]
    cases hb : splitChar sep b with
    | nil => exact absurd hb (splitChar_ne_nil sep b)
    | cons h0 t0 => simp
  | cons x a' ih =>
    have hx : ¬x = sep := fun hx => h (hx ▸ List.mem_cons_self x a')
    rw [List.cons_append, splitChar, if_neg hx,
      ih fun hm => h (List.mem_cons_of_mem x hm)]
    rfl

theorem splitChar_line (sep : Char) (a b : PyStr) (h : sep ∉ a) :
    splitChar sep (a ++ sep :: b) = a :: splitChar sep b := by
  rw [splitChar_append_no_sep sep a (sep :: b) h, splitChar_sep_cons]
  simp

theorem splitChar_line2 (sep : Char) (a b c : PyStr) (ha : sep ∉ a) (hb : sep ∉ b) :
    splitChar sep (a ++ (b ++ sep :: c)) = (a ++ b) :: splitChar sep c := by
  rw [← List.append_assoc]
  exact splitChar_line sep (a ++ b) c (by
    simp only [List.mem_append]
    rintro (h | h)
    · exact ha h
    · exact hb h)

theorem joinUnderscore_splitChar (s : PyStr) :
    joinUnderscore (splitChar '_' s) = s := by
  induction s with
  | nil => rfl
  | cons x rest ih =>
    rw [splitChar]
    by_cases hx : x = '_'
    · rw [if_pos hx]
      cases hr : splitChar '_' rest with
      | nil => exact absurd hr (splitChar_ne_nil '_' rest)
      | cons h0 t0 =>
        have ih' := ih
        rw [hr] at ih'
        rw [joinUnderscore, List.nil_append, ih', hx]
    · rw [if_neg hx]
      cases hr : splitChar '_' rest with
      | nil => exact absurd hr (splitChar_ne_nil '_' rest)
      | cons h0 t0 =>
        have ih' := ih
        rw [hr] at ih'
        cases t0 with
        | nil =>
          simp only [joinUnderscore] at ih' ⊢
          rw [ih']
        | cons h1 t1 =>
          simp only [joinUnderscore] at ih' ⊢
          rw [List.cons_append, ih']

theorem joinUnderscore_filter_length :
    ∀ parts : List PyStr,
      (joinUnderscore (parts.filter (· ≠ []))).length ≤ (joinUnderscore parts).length := by
  intro parts
  induction parts with
  | nil => simp
  | cons p rest ih =>
    by_cases hp : p = []
    · subst hp
      rw [List.filter_cons_of_neg (by simp)]
      cases rest with
      | nil => simp [joinUnderscore]
      | cons q t =>
        rw [show joinUnderscore ([] :: q :: t) = [] ++ '_' :: joinUnderscore (q :: t)
          from rfl]
        have := ih
        simp only [List.nil_append, List.length_cons]
        omega
    · rw [List.filter_cons_of_pos (by simpa using hp)]
      cases rest with
      | nil => simp
      | cons q t =>
        cases hrf : (q :: t).filter (· ≠ []) with
        | nil =>
          simp only [joinUnderscore]
          simp
        | cons q0 t0 =>
          simp only [joinUnderscore]
          have := ih
          rw [hrf] at this
          simp only [List.length_append, List.length_cons]
          omega

theorem joinUnderscore_ne_nil :
    ∀ parts : List PyStr, parts ≠ [] → (∀ p ∈ parts, p ≠ []) →
      joinUnderscore parts ≠ [] := by
  intro parts hne hp
  cases parts with
  | nil => exact absurd rfl hne
  | cons p rest =>
    cases rest with
    | nil =>
      rw [joinUnderscore]
      exact hp p (List.mem_cons_self _ _)
    | cons q t =>
      rw [joinUnderscore]
      have : p ≠ [] := hp p (List.mem_cons_self _ _)
      cases p with
      | nil => exact absurd rfl this
      | cons c cs => simp

theorem mem_joinUnderscore :
    ∀ (parts : List PyStr) (c : Char), c ∈ joinUnderscore parts →
      c = '_' ∨ ∃ p ∈ parts, c ∈ p := by
  intro parts
  induction parts with
  | nil => intro c hc; cases hc
  | cons p rest ih =>
    intro c hc
    cases rest with
    | nil =>
      rw [joinUnderscore] at hc
      exact .inr ⟨p, List.mem_cons_self _ _, hc⟩
    | cons q t =>
      rw [joinUnderscore] at hc
      rcases List.mem_append.mp hc with h | h
      · exact .inr ⟨p, List.mem_cons_self _ _, h⟩
      · rcases List.mem_cons.mp h with h | h
        · exact .inl h
        · rcases ih c h with h | ⟨p', hp', hc'⟩
          · exact .inl h
          · exact .inr ⟨p', List.mem_cons_of_mem _ hp', hc'⟩

theorem joinUnderscore_head?_ne :
    ∀ parts : List PyStr, (∀ p ∈ parts, p ≠ [] ∧ ∀ c ∈ p, c ≠ '_') →
      (joinUnderscore parts).head? ≠ some '_' := by
  intro parts hp
  cases parts with
  | nil => simp [joinUnderscore]
  | cons p rest =>
    obtain ⟨hne, hchars⟩ := hp p (List.mem_cons_self _ _)
    cases p with
    | nil => exact absurd rfl hne
    | cons c cs =>
      have hc : c ≠ '_' := hchars c (List.mem_cons_self _ _)
      cases rest with
      | nil =>
        rw [joinUnderscore]
        simpa using hc
      | cons q t =>
        rw [joinUnderscore, List.cons_append]
        simpa using hc

theorem joinUnderscore_getLast?_ne :
    ∀ parts : List PyStr, (∀ p ∈ parts, p ≠ [] ∧ ∀ c ∈ p, c ≠ '_') →
      (joinUnderscore parts).getLast? ≠ some '_' := by
  intro parts
  induction parts with
  | nil => simp [joinUnderscore]
  | cons p rest ih =>
    intro hp
    obtain ⟨hne, hchars⟩ := hp p (List.mem_cons_self _ _)
    cases rest with
    | nil =>
      rw [joinUnderscore]
      intro h
      exact hchars '_' (List.mem_of_mem_getLast? (Option.mem_def.mpr h)) rfl
    | cons q t =>
      rw [joinUnderscore]
      have hrest : ∀ p' ∈ q :: t, p' ≠ [] ∧ ∀ c ∈ p', c ≠ '_' :=
        fun p' hp' => hp p' (List.mem_cons_of_mem _ hp')
      have hjne : joinUnderscore (q :: t) ≠ [] :=
        joinUnderscore_ne_nil (q :: t) (by simp) fun p' hp' => (hrest p' hp').1
      have hgl : (p ++ '_' :: joinUnderscore (q :: t)).getLast? =
          ('_' :: joinUnderscore (q :: t)).getLast? :=
        List.getLast?_append_of_ne_nil p (by simp)
      have hgl2 : ('_' :: joinUnderscore (q :: t)).getLast? =
          (joinUnderscore (q :: t)).getLast? := by
        rw [show ('_' :: joinUnderscore (q :: t)) =
          ['_'] ++ joinUnderscore (q :: t) from rfl]
        exact List.getLast?_append_of_ne_nil ['_'] hjne
      rw [hgl, hgl2]
      exact ih hrest

theorem chain'_of_no_underscore (l : PyStr) (h : ∀ c ∈ l, c ≠ '_') :
    List.Chain' (fun a b => a ≠ '_' ∨ b ≠ '_') l := by
  induction l with
  | nil => exact List.chain'_nil
  | cons c t ih =>
    rw [List.chain'_cons']
    exact ⟨fun y _ => .inl (h c (List.mem_cons_self _ _)),
      ih fun x hx => h x (List.mem_cons_of_mem _ hx)⟩

theorem joinUnderscore_chain' :
    ∀ parts : List PyStr, (∀ p ∈ parts, p ≠ [] ∧ ∀ c ∈ p, c ≠ '_') →
      List.Chain' (fun a b => a ≠ '_' ∨ b ≠ '_') (joinUnderscore parts) := by
  intro parts
  induction parts with
  | nil => intro _; exact List.chain'_nil
  | cons p rest ih =>
    intro hp
    obtain ⟨hne, hchars⟩ := hp p (List.mem_cons_self _ _)
    cases rest with
    | nil =>
      rw [joinUnderscore]
      exact chain'_of_no_underscore p hchars
    | cons q t =>
      rw [joinUnderscore]
      have hrest : ∀ p' ∈ q :: t, p' ≠ [] ∧ ∀ c ∈ p', c ≠ '_' :=
        fun p' hp' => hp p' (List.mem_cons_of_mem _ hp')
      rw [List.chain'_append]
      refine ⟨chain'_of_no_underscore p hchars, ?_, ?_⟩
      · rw [List.chain'_cons']
        refine ⟨?_, ih hrest⟩
        intro y hy
        right
        intro hy'
        subst hy'
        exact joinUnderscore_head?_ne (q :: t) hrest hy
      · intro x hx y _
        left
        exact hchars x (List.mem_of_mem_getLast? hx)

/-! ## Video duration field (claim C8) -/

theorem findSome?_cons_eq_none {α β : Type} (f : α → Option β) (a : α)
    (l : List α) (h : f a = none) :
    List.findSome? f (a :: l) = List.findSome? f l := by
  rw [List.findSome?_cons, h]

theorem findSome?_cons_eq_some {α β : Type} (f : α → Option β) (a : α)
    (l : List α) (b : β) (h : f a = some b) :
    List.findSome? f (a :: l) = some b := by
  rw [List.findSome?_cons, h]

theorem ytContent_durationField (url title vid dur upd desc : PyStr)
    (tr : Option PyStr) (hu : '\n' ∉ url) (ht : '\n' ∉ title) (hv : '\n' ∉ vid)
    (hd : '\n' ∉ dur) :
    durationField (ytContent url title vid dur upd desc tr) = some dur := by
  rw [durationField, ytContent.eq_def]
  rw [show pystr "---\nurl: " = pystr "---" ++ '\n' :: pystr "url: " from rfl,
    show pystr "\ntitle: " = '\n' :: pystr "title: " from rfl,
    show pystr "\nsource: YouTube\nvideo_id: " =
      '\n' :: (pystr "source: YouTube" ++ '\n' :: pystr "video_id: ") from rfl,
    show pystr "\nduration: " = '\n' :: pystr "duration: " from rfl,
    show pystr "\nupload_date: " = '\n' :: pystr "upload_date: " from rfl]
  simp only [List.append_assoc, List.cons_append]
  rw [splitChar_line '\n' (pystr "---") _ (by decide)]
  rw [splitChar_line2 '\n' (pystr "url: ") url _ (by decide) hu]
  rw [splitChar_line2 '\n' (pystr "title: ") title _ (by decide) ht]
  rw [splitChar_line '\n' (pystr "source: YouTube") _ (by decide)]
  rw [splitChar_line2 '\n' (pystr "video_id: ") vid _ (by decide) hv]
  rw [splitChar_line2 '\n' (pystr "duration: ") dur _ (by decide) hd]
  have e2 : (pystr "duration: ").isPrefixOf (pystr "url: " ++ url) = false := rfl
  have e3 : (pystr "duration: ").isPrefixOf (pystr "title: " ++ title) = false := rfl
  have e5 : (pystr "duration: ").isPrefixOf (pystr "video_id: " ++ vid) = false := rfl
  have e6 : (pystr "duration: ").isPrefixOf (pystr "duration: " ++ dur) = true :=
    List.isPrefixOf_iff_prefix.mpr (List.prefix_append _ _)
  have d1 : durationLine? (pystr "---") = none := by decide
  have d2 : durationLine? (pystr "url: " ++ url) = none := by
    simp [durationLine?, e2]
  have d3 : durationLine? (pystr "title: " ++ title) = none := by
    simp [durationLine?, e3]
  have d4 : durationLine? (pystr "source: YouTube") = none := by decide
  have d5 : durationLine? (pystr "video_id: " ++ vid) = none := by
    simp [durationLine?, e5]
  have d6 : durationLine? (pystr "duration: " ++ dur) = some dur := by
    rw [durationLine?, if_pos e6, List.drop_left]
  rw [findSome?_cons_eq_none _ _ _ d1, findSome?_cons_eq_none _ _ _ d2,
    findSome?_cons_eq_none _ _ _ d3, findSome?_cons_eq_none _ _ _ d4,
    findSome?_cons_eq_none _ _ _ d5, findSome?_cons_eq_some _ _ _ _ d6]

/-- The title and duration fields extracted from the metadata stdout never
contain a newline (they are lines of a newline split), nor does the fallback. -/
theorem ytMetadata_no_newline (vid : PyStr) (env : YtEnv) (hv : '\n' ∉ vid) :
    '\n' ∉ (ytMetadata vid env).1 ∧ '\n' ∉ (ytMetadata vid env).2.2.1 := by
  cases henv : env.metaStdout with
  | none =>
    simp only [ytMetadata, henv]
    exact ⟨hv, by simp⟩
  | some out =>
    simp only [ytMetadata, henv]
    constructor
    · cases hl : splitChar '\n' (pyStrip out) with
      | nil => exact absurd hl (splitChar_ne_nil _ _)
      | cons h0 t0 =>
        simp only [hl, List.length_cons, List.headD_cons]
        rw [if_pos (by omega)]
        intro hc
        exact (mem_splitChar '\n' (pyStrip out) h0
          (hl ▸ List.mem_cons_self h0 t0) '\n' hc).2 rfl
    · cases hd2 : (splitChar '\n' (pyStrip out)).drop 2 with
      | nil => simp [hd2]
      | cons h0 t0 =>
        simp only [hd2, List.headD_cons]
        intro hc
        have hmem : h0 ∈ splitChar '\n' (pyStrip out) :=
          List.drop_subset 2 _ (hd2 ▸ List.mem_cons_self h0 t0)
        exact (mem_splitChar '\n' (pyStrip out) h0 hmem '\n' hc).2 rfl

/-- Claim C8 counterexample: the Video Transcript Fetcher applies no duration
formatting. When the metadata tool reports the duration of a one-hour video as
the seconds value `3600` (the metadata interface of the spec yields duration in
seconds), the document's `duration:` field is the verbatim `3600`, not the
`1:00:00` that H:MM:SS formatting would produce. -/
theorem youtube_duration_not_formatted :
    ∃ content,
      scrape_youtube_content (pystr "https://youtu.be/vid123")
          ⟨none, some (pystr "T\nD\n3600\n20240101")⟩ = .ok content ∧
      durationField content = some (pystr "3600") ∧
      durationField content ≠ some (pystr "1:00:00") :=
  ⟨_, rfl, rfl, by decide⟩

/-- Claim C8 amended: the duration written into the output document is the
external metadata tool's duration string (its third stdout line, or empty on
failure), copied verbatim into the `duration:` header field; the Fetcher itself
performs no `H:MM:SS` / `M:SS` formatting — that rendering, when it appears, is
produced by the external tool. -/
theorem youtube_duration_amended_spec :
    ∀ (url : PyStr) (env : YtEnv) (vid : PyStr),
      extract_video_id url = .ok vid → '\n' ∉ url → '\n' ∉ vid →
      ∃ content, scrape_youtube_content url env = .ok content ∧
        durationField content = some (ytMetadata vid env).2.2.1 := by
  intro url env vid hvid hu hv
  obtain ⟨ht, hd⟩ := ytMetadata_no_newline vid env hv
  refine ⟨_, ?_, ytContent_durationField url (ytMetadata vid env).1 vid
    (ytMetadata vid env).2.2.1 (ytMetadata vid env).2.2.2 (ytMetadata vid env).2.1
    env.transcript hu ht hv hd⟩
  simp only [scrape_youtube_content, hvid]

/-- Witness for claim C8 (amended): a concrete run whose metadata stdout
carries `5:03` as the third line writes exactly that string. -/
theorem youtube_duration_amended_spec_witness :
    ∃ content,
      scrape_youtube_content (pystr "https://youtu.be/vid123")
          ⟨none, some (pystr "T\nD\n5:03\n20240101")⟩ = .ok content ∧
      durationField content =
        some (ytMetadata (pystr "vid123")
          ⟨none, some (pystr "T\nD\n5:03\n20240101")⟩).2.2.1 :=
  youtube_duration_amended_spec (pystr "https://youtu.be/vid123")
    ⟨none, some (pystr "T\nD\n5:03\n20240101")⟩ (pystr "vid123")
    rfl (by decide) (by decide)

/-! ## Collision-free output naming (claim C9) -/

theorem uniqueNameGo_not_mem (existing : List PyStr) (stem : PyStr) :
    ∀ fuel counter name, uniqueNameGo existing stem counter fuel = some name →
      name ∉ existing := by
  intro fuel
  induction fuel with
  | zero => intro counter name h; cases h
  | succ f ih =>
    intro counter name h
    rw [uniqueNameGo] at h
    by_cases hc : mdCandidate stem counter ∈ existing
    · rw [if_pos hc] at h
      exact ih (counter + 1) name h
    · rw [if_neg hc] at h
      cases h
      exact hc

theorem uniqueNameGo_first (existing : List PyStr) (stem : PyStr) :
    ∀ fuel counter name, uniqueNameGo existing stem counter fuel = some name →
      ∃ k, counter ≤ k ∧ name = mdCandidate stem k ∧
        ∀ j, counter ≤ j → j < k → mdCandidate stem j ∈ existing := by
  intro fuel
  induction fuel with
  | zero => intro counter name h; cases h
  | succ f ih =>
    intro counter name h
    rw [uniqueNameGo] at h
    by_cases hc : mdCandidate stem counter ∈ existing
    · rw [if_pos hc] at h
      obtain ⟨k, hk1, hk2, hk3⟩ := ih (counter + 1) name h
      refine ⟨k, by omega, hk2, ?_⟩
      intro j hj1 hj2
      by_cases hje : j = counter
      · exact hje ▸ hc
      · exact hk3 j (by omega) hj2
    · rw [if_neg hc] at h
      cases h
      exact ⟨counter, le_refl _, rfl, fun j hj1 hj2 => absurd hj2 (by omega)⟩

theorem uniqueName_not_mem (existing : List PyStr) (stem : PyStr) (fuel : Nat)
    (name : PyStr) (h : uniqueName existing stem fuel = some name) :
    name ∉ existing := by
  rw [uniqueName] at h
  by_cases hb : stem ++ pystr ".md" ∈ existing
  · rw [if_pos hb] at h
    exact uniqueNameGo_not_mem existing stem fuel 1 name h
  · rw [if_neg hb] at h
    cases h
    exact hb

/-- Claim C9: the naming routine avoids collisions without touching existing
files. A successful `writeOutput` returns a name absent from the directory and
only appends the new file; the name chosen is `stem.md` when free, else the
first free `stem_k.md` with `k = 1, 2, …` tried in order; and in the
two-successive-scrapes scenario the first write lands on `stem.md`, the second
on `stem_1.md`, with the first file's binding (its content) intact in the
resulting directory. -/
theorem unique_filename_spec :
    (∀ (dir : Dir) (stem content name : PyStr) (dir' : Dir),
      writeOutput dir stem content = some (name, dir') →
      name ∉ dir.map Prod.fst ∧ dir' = dir ++ [(name, content)]) ∧
    (∀ (existing : List PyStr) (stem : PyStr) (fuel : Nat) (name : PyStr),
      uniqueName existing stem fuel = some name →
      name ∉ existing ∧
      (name = stem ++ pystr ".md" ∨
        ∃ k, 1 ≤ k ∧ name = mdCandidate stem k ∧ stem ++ pystr ".md" ∈ existing ∧
          ∀ j, 1 ≤ j → j < k → mdCandidate stem j ∈ existing)) ∧
    (∀ stem c1 c2 : PyStr,
      writeOutput [] stem c1 =
        some (stem ++ pystr ".md", [(stem ++ pystr ".md", c1)]) ∧
      writeOutput [(stem ++ pystr ".md", c1)] stem c2 =
        some (mdCandidate stem 1,
          [(stem ++ pystr ".md", c1), (mdCandidate stem 1, c2)])) := by
  refine ⟨?_, ?_, ?_⟩
  · intro dir stem content name dir' h
    rw [writeOutput] at h
    cases hu : uniqueName (dir.map Prod.fst) stem (dir.length + 1) with
    | none => rw [hu] at h; cases h
    | some n =>
      rw [hu] at h
      cases h
      exact ⟨uniqueName_not_mem _ _ _ _ hu, rfl⟩
  · intro existing stem fuel name h
    refine ⟨uniqueName_not_mem _ _ _ _ h, ?_⟩
    rw [uniqueName] at h
    by_cases hb : stem ++ pystr ".md" ∈ existing
    · rw [if_pos hb] at h
      obtain ⟨k, hk1, hk2, hk3⟩ := uniqueNameGo_first existing stem fuel 1 name h
      exact .inr ⟨k, hk1, hk2, hb, fun j h1 h2 => hk3 j h1 h2⟩
    · rw [if_neg hb] at h
      cases h
      exact .inl rfl
  · intro stem c1 c2
    have hne : mdCandidate stem 1 ≠ stem ++ pystr ".md" := by
      intro h
      rw [mdCandidate] at h
      have := List.append_cancel_left h
      cases this
    constructor
    · rw [writeOutput, uniqueName]
      rw [if_neg (by simp)]
      rfl
    · rw [writeOutput, uniqueName]
      rw [if_pos (by simp)]
      have hgo : uniqueNameGo [stem ++ pystr ".md"] stem 1 2 =
          some (mdCandidate stem 1) := by
        rw [uniqueNameGo, if_neg (by simp [hne])]
      simp only [List.map_cons, List.map_nil, List.length_cons, List.length_nil,
        Nat.reduceAdd]
      rw [hgo]
      rfl

/-- Witness for claim C9: the general free-name property applied to a concrete
occupied directory. -/
theorem unique_filename_spec_witness :
    pystr "a_1.md" ∉ [pystr "a.md"] ∧
    (pystr "a_1.md" = pystr "a" ++ pystr ".md" ∨
      ∃ k, 1 ≤ k ∧ pystr "a_1.md" = mdCandidate (pystr "a") k ∧
        pystr "a" ++ pystr ".md" ∈ [pystr "a.md"] ∧
        ∀ j, 1 ≤ j → j < k → mdCandidate (pystr "a") j ∈ [pystr "a.md"]) :=
  unique_filename_spec.2.1 [pystr "a.md"] (pystr "a") 5 (pystr "a_1.md") (by decide)

/-! ## Filename sanitization safety (claim C10) -/

theorem sanitize_parts_good (s : PyStr) :
    ∀ p ∈ (splitChar '_' (s.map (fun c => if c.isAlphanum then c else '_'))).filter
        (· ≠ []),
      p ≠ [] ∧ ∀ c ∈ p, c ≠ '_' ∧ c.isAlphanum = true := by
  intro p hp
  obtain ⟨hp1, hp2⟩ := List.mem_filter.mp hp
  refine ⟨by simpa using hp2, ?_⟩
  intro c hc
  obtain ⟨hmem, hne⟩ := mem_splitChar '_'
    (s.map (fun c => if c.isAlphanum then c else '_')) p hp1 c hc
  refine ⟨hne, ?_⟩
  obtain ⟨x, _, hfx⟩ := List.mem_map.mp hmem
  by_cases hal : x.isAlphanum = true
  · rw [if_pos hal] at hfx
    rw [← hfx]
    exact hal
  · rw [if_neg hal] at hfx
    exact absurd hfx.symm hne

/-- Claim C10: for every title (including hostile ones with path separators or
`..`), the sanitized stem consists only of alphanumeric characters and single
separating underscores (no two adjacent underscores, none leading or trailing),
has length at most 50, and the writers fall back to the constants `untitled`
(web and daemon-client) or `document` (PDF) when the stem is empty; the stem
(hence the output file name) contains no path separator and is not `..`, so the
written file is always a direct child of the output directory. -/
theorem sanitize_filename_spec :
    (∀ title : PyStr,
      (∀ c ∈ sanitizeTitle title, c = '_' ∨ c.isAlphanum = true) ∧
      List.Chain' (fun a b => a ≠ '_' ∨ b ≠ '_') (sanitizeTitle title) ∧
      (sanitizeTitle title).head? ≠ some '_' ∧
      (sanitizeTitle title).getLast? ≠ some '_' ∧
      (sanitizeTitle title).length ≤ 50 ∧
      webStem title ≠ [] ∧
      (sanitizeTitle title = [] → webStem title = pystr "untitled") ∧
      '/' ∉ webStem title ∧ '\\' ∉ webStem title ∧ webStem title ≠ pystr "..") ∧
    (∀ url : PyStr, pdfStem url ≠ [] ∧
      (sanitizeTitle (pdfBaseFilename url) = [] → pdfStem url = pystr "document") ∧
      '/' ∉ pdfStem url ∧ pdfStem url ≠ pystr "..") := by
  have hmem : ∀ title : PyStr, ∀ c ∈ sanitizeTitle title,
      c = '_' ∨ c.isAlphanum = true := by
    intro title c hc
    rw [sanitizeTitle] at hc
    rcases mem_joinUnderscore _ c hc with h | ⟨p, hp, hcp⟩
    · exact .inl h
    · exact .inr ((sanitize_parts_good (title.take 50) p hp).2 c hcp).2
  have hgood : ∀ title : PyStr,
      ∀ p ∈ (splitChar '_' ((title.take 50).map
          (fun c => if c.isAlphanum then c else '_'))).filter (· ≠ []),
        p ≠ [] ∧ ∀ c ∈ p, c ≠ '_' :=
    fun title p hp => ⟨(sanitize_parts_good (title.take 50) p hp).1,
      fun c hc => ((sanitize_parts_good (title.take 50) p hp).2 c hc).1⟩
  have hsafe : ∀ (title : PyStr) (c : Char), c.isAlphanum = false → c ≠ '_' →
      c ∉ sanitizeTitle title := by
    intro title c hal hund hc
    rcases hmem title c hc with h | h
    · exact hund h
    · rw [hal] at h
      cases h
  have hlen : ∀ title : PyStr, (sanitizeTitle title).length ≤ 50 := by
    intro title
    rw [sanitizeTitle]
    calc (joinUnderscore ((splitChar '_' ((title.take 50).map
              (fun c => if c.isAlphanum then c else '_'))).filter (· ≠ []))).length
        ≤ (joinUnderscore (splitChar '_' ((title.take 50).map
              (fun c => if c.isAlphanum then c else '_')))).length :=
          joinUnderscore_filter_length _
      _ = ((title.take 50).map (fun c => if c.isAlphanum then c else '_')).length := by
          rw [joinUnderscore_splitChar]
      _ ≤ 50 := by
          rw [List.length_map, List.length_take]
          omega
  have hdotdot : ∀ title : PyStr, sanitizeTitle title ≠ pystr ".." := by
    intro title h
    exact hsafe title '.' (by decide) (by decide) (h ▸ (by decide : '.' ∈ pystr ".."))
  refine ⟨?_, ?_⟩
  · intro title
    refine ⟨hmem title, ?_, ?_, ?_, hlen title, ?_, ?_, ?_, ?_, ?_⟩
    · rw [sanitizeTitle]
      exact joinUnderscore_chain' _ (hgood title)
    · rw [sanitizeTitle]
      exact joinUnderscore_head?_ne _ (hgood title)
    · rw [sanitizeTitle]
      exact joinUnderscore_getLast?_ne _ (hgood title)
    · rw [webStem]
      split
      · simp [pystr]
      · assumption
    · intro h
      rw [webStem, if_pos h]
    · rw [webStem]
      split
      · decide
      · exact hsafe title '/' (by decide) (by decide)
    · rw [webStem]
      split
      · decide
      · exact hsafe title '\\' (by decide) (by decide)
    · rw [webStem]
      split
      · decide
      · exact hdotdot title
  · intro url
    refine ⟨?_, ?_, ?_, ?_⟩
    · rw [pdfStem]
      split
      · simp [pystr]
      · assumption
    · intro h
      rw [pdfStem, if_pos h]
    · rw [pdfStem]
      split
      · decide
      · exact hsafe (pdfBaseFilename url) '/' (by decide) (by decide)
    · rw [pdfStem]
      split
      · decide
      · exact hdotdot (pdfBaseFilename url)

/-- Witness for claim C10: the fallback conjunct fired on the empty-stem title
`"///"` (all characters non-alphanumeric). -/
theorem sanitize_filename_spec_witness :
    webStem (pystr "///") = pystr "untitled" :=
  (sanitize_filename_spec.1 (pystr "///")).2.2.2.2.2.2.1 (by decide)

end ScrapeToMd
